import Mathlib

/-!
Verification of the sherpa-ncnn voice-activity-detection (VAD) C API and its
demonstration harness.

The repository visible here ships the C API surface (`sherpa-ncnn/c-api/c-api.h`)
and a demonstration harness (`vad-c-api.c`).  The VAD core itself
(ring buffer, segmentation state machine, segment queue) is specified in the
accompanying design document; its behaviour is modelled here from that
specification and the API documentation, while the harness's control flow is
embedded directly from its C source.

Conventions: audio samples are rationals (the C code uses 32-bit floats
normalized to `[-1, 1]`); durations in seconds are rationals; sample counts and
indices are naturals.  The external probability scorer is an opaque function
from a window of samples to a rational probability, per the specification.
-/

set_option autoImplicit false

namespace SherpaVad

/-- Modelled from the spec: configuration of the Silero VAD
(`SherpaNcnnVadModelConfig` in `c-api.h`); only the fields that influence the
segmentation behaviour are kept (the model path and backend hints do not). -/
structure VadConfig where
  threshold : ℚ
  min_silence_duration : ℚ
  min_speech_duration : ℚ
  window_size : ℕ
  sample_rate : ℕ
deriving DecidableEq

/-- Modelled from the spec: a detected speech segment
(`SherpaNcnnSpeechSegment` in `c-api.h`): absolute start sample index, owned
copy of the samples, and the sample count `n`. -/
structure Segment where
  start : ℕ
  samples : List ℚ
  n : ℕ
deriving DecidableEq

/-- Modelled from the spec: the state of the `VoiceActivityDetector` facade:
the full absolute-indexed sample stream received so far (the ring buffer,
abstracted as unbounded history), the windowing cursor (absolute index of the
next unclassified sample), the segmentation state machine's mode
(`speaking = true` means `Speech`), the start index of the open speech run,
the accumulated trailing-silence sample count, and the FIFO segment queue. -/
structure VadState where
  stream : List ℚ
  cursor : ℕ
  speaking : Bool
  speech_start : ℕ
  silence_acc : ℕ
  queue : List Segment
deriving DecidableEq

/-- Initial detector state: empty stream, cursor at zero, `Silence` mode,
empty queue. -/
def initState : VadState :=
  { stream := [], cursor := 0, speaking := false, speech_start := 0,
    silence_acc := 0, queue := [] }

/-- Modelled from the spec: the per-window classification decision — a window
is treated as speech-bearing exactly when the scorer's probability `p`
satisfies `p >= threshold`. -/
def isSpeechScore (cfg : VadConfig) (p : ℚ) : Bool :=
  cfg.threshold ≤ p

/-- Modelled from the spec: one step of the `SegmentationStateMachine`,
run on the next full window `[cursor, cursor + window_size)`:
score the window; on speech enter/stay in `Speech` and reset the silence
accumulator; on silence while in `Speech` accumulate silence and, once
`min_silence_duration` of silence has been seen, close the run (excluding the
trailing silence), pushing a `Segment` iff the run meets
`min_speech_duration`; then advance the cursor by one window. -/
def processWindow (cfg : VadConfig) (score : List ℚ → ℚ) (s : VadState) :
    VadState :=
  let window := (s.stream.drop s.cursor).take cfg.window_size
  let p := score window
  if isSpeechScore cfg p then
    if s.speaking then
      { s with silence_acc := 0, cursor := s.cursor + cfg.window_size }
    else
      { s with speaking := true, speech_start := s.cursor, silence_acc := 0,
               cursor := s.cursor + cfg.window_size }
  else
    if s.speaking then
      let acc := s.silence_acc + cfg.window_size
      if cfg.min_silence_duration ≤ (acc : ℚ) / (cfg.sample_rate : ℚ) then
        let run_len := s.cursor + cfg.window_size - s.speech_start - acc
        let queue' :=
          if cfg.min_speech_duration ≤ (run_len : ℚ) / (cfg.sample_rate : ℚ)
          then s.queue ++
            [{ start := s.speech_start,
               samples := (s.stream.drop s.speech_start).take run_len,
               n := run_len }]
          else s.queue
        { s with speaking := false, speech_start := 0, silence_acc := 0,
                 queue := queue', cursor := s.cursor + cfg.window_size }
      else
        { s with silence_acc := acc, cursor := s.cursor + cfg.window_size }
    else
      { s with cursor := s.cursor + cfg.window_size }

/-- Run the state machine over `k` consecutive full windows. -/
def processWindows (cfg : VadConfig) (score : List ℚ → ℚ) :
    ℕ → VadState → VadState
  | 0, s => s
  | k + 1, s => processWindows cfg score k (processWindow cfg score s)

/-- Modelled from the spec: `SherpaNcnnVoiceActivityDetectorAcceptWaveform` —
append the samples to the buffer, then drive the state machine over every
complete window now available (leftover samples shorter than one window stay
buffered). -/
def acceptWaveform (cfg : VadConfig) (score : List ℚ → ℚ) (s : VadState)
    (samples : List ℚ) : VadState :=
  let s1 : VadState := { s with stream := s.stream ++ samples }
  processWindows cfg score ((s1.stream.length - s1.cursor) / cfg.window_size) s1

/-- Modelled from the spec: `SherpaNcnnVoiceActivityDetectorFlush` — if in
`Speech`, force-close the open run with all classified samples accumulated so
far (no minimum-silence requirement) subject to the `min_speech_duration`
filter, then discard any leftover partial window. -/
def flush (cfg : VadConfig) (s : VadState) : VadState :=
  let s1 : VadState :=
    if s.speaking then
      let run_len := s.cursor - s.speech_start
      let queue' :=
        if cfg.min_speech_duration ≤ (run_len : ℚ) / (cfg.sample_rate : ℚ)
        then s.queue ++
          [{ start := s.speech_start,
             samples := (s.stream.drop s.speech_start).take run_len,
             n := run_len }]
        else s.queue
      { s with speaking := false, speech_start := 0, silence_acc := 0,
               queue := queue' }
    else s
  { s1 with cursor := s1.stream.length }

/-- Modelled from the spec: `SherpaNcnnVoiceActivityDetectorReset` — discard
the open run, accumulators and the pending partial window, return to
`Silence`; the queue is untouched and the absolute index keeps advancing. -/
def reset (s : VadState) : VadState :=
  { s with speaking := false, speech_start := 0, silence_acc := 0,
           cursor := s.stream.length }

/-- Modelled from the spec: `SherpaNcnnVoiceActivityDetectorClear` — empty the
segment queue, leaving classification state alone. -/
def clear (s : VadState) : VadState :=
  { s with queue := [] }

/-- Modelled from the spec: `SherpaNcnnVoiceActivityDetectorDetected` — true
iff the state machine is currently in `Speech`. -/
def isSpeechDetected (s : VadState) : Bool :=
  s.speaking

/-- Modelled from the spec: `SherpaNcnnVoiceActivityDetectorEmpty` — whether
the segment queue is empty. -/
def isEmpty (s : VadState) : Bool :=
  s.queue.isEmpty

/-- Error taxonomy relevant to queue access: calling front/pop on an empty
queue ("It throws if the queue is empty", `c-api.h`). -/
inductive VadError where
  | EmptyQueue
deriving DecidableEq

/-- Modelled from the spec: `SherpaNcnnVoiceActivityDetectorFront` — the
oldest segment, not removed; throws `EmptyQueue` when the queue is empty. -/
def front (s : VadState) : Except VadError Segment :=
  match s.queue with
  | [] => .error .EmptyQueue
  | seg :: _ => .ok seg

/-- Modelled from the spec: `SherpaNcnnVoiceActivityDetectorPop` — remove the
oldest segment; throws `EmptyQueue` (leaving the state unchanged) when the
queue is empty. -/
def pop (s : VadState) : Except VadError VadState :=
  match s.queue with
  | [] => .error .EmptyQueue
  | _ :: rest => .ok { s with queue := rest }

/-- Detector states reachable from the initial state through the public API:
`accept_waveform`, `flush`, `reset`, `clear` and successful `pop`. -/
inductive Reachable (cfg : VadConfig) (score : List ℚ → ℚ) : VadState → Prop
  | init : Reachable cfg score initState
  | acceptStep (s : VadState) (samples : List ℚ) :
      Reachable cfg score s →
      Reachable cfg score (acceptWaveform cfg score s samples)
  | flushStep (s : VadState) :
      Reachable cfg score s → Reachable cfg score (flush cfg s)
  | resetStep (s : VadState) :
      Reachable cfg score s → Reachable cfg score (reset s)
  | clearStep (s : VadState) :
      Reachable cfg score s → Reachable cfg score (clear s)
  | popStep (s s' : VadState) :
      Reachable cfg score s → pop s = .ok s' → Reachable cfg score s'

/-- Scorer used for concrete scenarios: the probability reported for a window
is its first sample (so a test signal encodes its own per-window scores). -/
def scoreHead : List ℚ → ℚ := fun wnd => wnd.headD 0

/-- Small configuration used for concrete witnesses: two-sample windows at a
four-hertz sample rate. -/
def demoCfg : VadConfig :=
  { threshold := 1/2, min_silence_duration := 1/4, min_speech_duration := 1/2,
    window_size := 2, sample_rate := 4 }

/-- Configuration of the spec's concrete scenario: the defaults of
`SherpaNcnnVadModelConfig` (threshold 0.5, minimum silence 0.5 s, minimum
speech 0.25 s, 512-sample windows at 16 kHz). -/
def scenarioCfg : VadConfig :=
  { threshold := 1/2, min_silence_duration := 1/2, min_speech_duration := 1/4,
    window_size := 512, sample_rate := 16000 }

/-- Input of the spec's concrete scenario: one second scored 0.1, one second
scored 0.9, then 0.6 seconds scored 0.1, at 16 kHz under `scoreHead`. -/
def scenarioInput : List ℚ :=
  List.replicate 16000 (1/10) ++
    (List.replicate 16000 (9/10) ++ List.replicate 9600 (1/10))

/-- Detector state of the concrete scenario after feeding the whole input but
before flushing. -/
def scenarioBeforeFlush : VadState :=
  acceptWaveform scenarioCfg scoreHead initState scenarioInput

/-- Detector state of the concrete scenario after the final `flush()`. -/
def scenarioFinal : VadState :=
  flush scenarioCfg scenarioBeforeFlush

/-- The observable data of a queued segment that the concrete scenario
constrains: its absolute start index and its sample count. -/
def segmentInfo (seg : Segment) : ℕ × ℕ :=
  (seg.start, seg.n)

/-- Sample conversion performed by the demonstration harness
(`vad-c-api.c`): `samples[i] = buffer[i] / 32768.0f`, an exact operation on
16-bit integers, modelled over the rationals. -/
def normalizeSample (v : ℤ) : ℚ :=
  (v : ℚ) / 32768

/-- Events of interest performed by the demonstration harness's main loop on
the detector: accepting a slice `[lo, lo + n)` of the input, or flushing. -/
inductive HarnessEvent where
  | acceptEv (lo n : ℕ)
  | flushEv
deriving DecidableEq

/-- The sample indices passed to the detector by one harness event. -/
def eventSamples : HarnessEvent → List ℕ
  | .acceptEv lo n => (List.range n).map (lo + ·)
  | .flushEv => []

/-- Whether a harness event is the flush call. -/
def isFlushEvent : HarnessEvent → Bool
  | .flushEv => true
  | _ => false

/-- Control flow of the main loop of `vad-c-api.c`, abstracted to the trace of
accept/flush events: starting at cursor `i`, while not at end of file, feed
one window if `i + window_size < num_samples`, otherwise feed the remaining
samples (if any), flush, and stop.  The loop itself has no bound; `fuel`
counts remaining iterations, and `none` means the budget was exhausted before
the loop ended. -/
def harnessTrace (w num : ℕ) : ℕ → ℕ → Option (List HarnessEvent)
  | 0, _ => none
  | fuel + 1, i =>
    if i + w < num then
      (harnessTrace w num fuel (i + w)).map (fun tr => .acceptEv i w :: tr)
    else if i < num then
      some [.acceptEv i (num - i), .flushEv]
    else
      some [.flushEv]

/-- Inner loop of the demonstration harness: while the queue reports
non-empty, take the front segment, count it, and pop it.  Front/pop errors
propagate; `count` mirrors `segment_index`. -/
def drainLoop (s : VadState) (count : ℕ) : Except VadError (ℕ × VadState) :=
  if _hq : s.queue.isEmpty then .ok (count, s)
  else
    match front s with
    | .error e => .error e
    | .ok _ =>
      match hp : pop s with
      | .error e => .error e
      | .ok s' => drainLoop s' (count + 1)
termination_by s.queue.length
decreasing_by
  simp only [pop] at hp
  rcases hcons : s.queue with _ | ⟨a, rest⟩
  · rw [hcons] at hp; cases hp
  · rw [hcons] at hp
    cases hp
    simp [hcons]

/-- Main loop of `vad-c-api.c` over the modelled detector: each iteration
either accepts one window and drains the queue, or (at end of input) accepts
the remaining samples, flushes, drains and stops.  `none` means the iteration
budget `fuel` was exhausted; otherwise the result carries the final
`segment_index` and detector state, or the first queue error encountered. -/
def harnessLoop (cfg : VadConfig) (score : List ℚ → ℚ) (samples : List ℚ)
    (w : ℕ) : ℕ → ℕ → ℕ → VadState → Option (Except VadError (ℕ × VadState))
  | 0, _, _, _ => none
  | fuel + 1, i, segIdx, s =>
    let num := samples.length
    if i + w < num then
      match drainLoop (acceptWaveform cfg score s ((samples.drop i).take w))
          segIdx with
      | .error e => some (.error e)
      | .ok (segIdx', s') => harnessLoop cfg score samples w fuel (i + w) segIdx' s'
    else
      let s1 := if i < num then acceptWaveform cfg score s (samples.drop i) else s
      some (drainLoop (flush cfg s1) segIdx)

/-! ## Structural lemmas about the state machine -/

lemma processWindow_stream (cfg : VadConfig) (score : List ℚ → ℚ)
    (s : VadState) : (processWindow cfg score s).stream = s.stream := by
  simp only [processWindow]
  split_ifs <;> rfl

lemma processWindow_cursor (cfg : VadConfig) (score : List ℚ → ℚ)
    (s : VadState) :
    (processWindow cfg score s).cursor = s.cursor + cfg.window_size := by
  simp only [processWindow]
  split_ifs <;> rfl

lemma processWindows_stream (cfg : VadConfig) (score : List ℚ → ℚ) :
    ∀ (k : ℕ) (s : VadState),
      (processWindows cfg score k s).stream = s.stream
  | 0, _ => rfl
  | k + 1, s => by
    rw [processWindows, processWindows_stream cfg score k,
      processWindow_stream]

lemma processWindows_cursor (cfg : VadConfig) (score : List ℚ → ℚ) :
    ∀ (k : ℕ) (s : VadState),
      (processWindows cfg score k s).cursor = s.cursor + k * cfg.window_size
  | 0, _ => by simp [processWindows]
  | k + 1, s => by
    rw [processWindows, processWindows_cursor cfg score k,
      processWindow_cursor]
    ring

lemma processWindows_add (cfg : VadConfig) (score : List ℚ → ℚ) :
    ∀ (m n : ℕ) (s : VadState),
      processWindows cfg score (m + n) s =
        processWindows cfg score n (processWindows cfg score m s)
  | 0, n, s => by rw [Nat.zero_add]; rfl
  | m + 1, n, s => by
    rw [Nat.succ_add, processWindows, processWindows,
      processWindows_add cfg score m n]

/-! ## Claim theorems: per-window classification, queue access, reset -/

/-- C3: a window is treated as speech-bearing exactly when the scorer's
probability `p` satisfies `p >= threshold` (the boundary case `p = threshold`
counts as speech), and as silence-bearing exactly when `p < threshold`:
from the `Silence` state, processing one window enters `Speech` precisely
when its score reaches the threshold. -/
theorem window_speech_iff_threshold (cfg : VadConfig) (score : List ℚ → ℚ)
    (s : VadState) (h : s.speaking = false) :
    ((processWindow cfg score s).speaking = true ↔
      cfg.threshold ≤ score ((s.stream.drop s.cursor).take cfg.window_size)) ∧
    ((processWindow cfg score s).speaking = false ↔
      score ((s.stream.drop s.cursor).take cfg.window_size) < cfg.threshold) := by
  by_cases hp :
      cfg.threshold ≤ score ((s.stream.drop s.cursor).take cfg.window_size)
  · simp [processWindow, isSpeechScore, h, hp]
  · have hp' := not_le.mp hp
    simp [processWindow, isSpeechScore, h, hp, hp']

/-- Witness for C3 at the boundary score `p = threshold = 1/2`: the window is
classified as speech. -/
theorem window_speech_iff_threshold_witness :
    (processWindow demoCfg scoreHead
      { stream := [1/2, 1/2], cursor := 0, speaking := false,
        speech_start := 0, silence_acc := 0, queue := [] }).speaking = true :=
  (window_speech_iff_threshold demoCfg scoreHead _ rfl).1.mpr (by norm_num [scoreHead, demoCfg])

/-- C5: `front`/`pop` on an empty queue fail with `EmptyQueue` (no state is
produced, so nothing changes); on a non-empty queue `front` returns the
oldest segment without removing it and `pop` removes exactly that oldest
segment. -/
theorem front_pop_queue_semantics (s : VadState) :
    (s.queue = [] →
      front s = .error .EmptyQueue ∧ pop s = .error .EmptyQueue) ∧
    (∀ (seg : Segment) (rest : List Segment), s.queue = seg :: rest →
      front s = .ok seg ∧ pop s = .ok { s with queue := rest }) := by
  refine ⟨fun h => ?_, fun seg rest h => ?_⟩
  · simp [front, pop, h]
  · simp [front, pop, h]

/-- Witness for C5: the initial (empty-queue) state errors on front and pop,
and a one-segment state returns exactly that segment and pops to empty. -/
theorem front_pop_queue_semantics_witness :
    (front initState = .error .EmptyQueue ∧
      pop initState = .error .EmptyQueue) ∧
    front { stream := [], cursor := 0, speaking := false, speech_start := 0,
            silence_acc := 0, queue := [{ start := 0, samples := [1], n := 1 }] } =
      .ok { start := 0, samples := [1], n := 1 } :=
  ⟨(front_pop_queue_semantics initState).1 rfl,
    ((front_pop_queue_semantics _).2 _ [] rfl).1⟩

/-- C4: calling `flush()` while the state machine is in `Speech` appends
exactly zero or one segment — one exactly when the forced-closed trailing run
`[speech_start, cursor)` meets `min_speech_duration`, zero otherwise —
leaves no partial window pending (the cursor reaches the end of the stream,
so the leftover samples are dropped), and returns the machine to `Silence`. -/
theorem flush_in_speech (cfg : VadConfig) (s : VadState)
    (h : s.speaking = true) :
    (flush cfg s).speaking = false ∧
    (flush cfg s).stream = s.stream ∧
    (flush cfg s).cursor = (flush cfg s).stream.length ∧
    (cfg.min_speech_duration ≤
        ((s.cursor - s.speech_start : ℕ) : ℚ) / (cfg.sample_rate : ℚ) →
      (flush cfg s).queue = s.queue ++
        [{ start := s.speech_start,
           samples :=
             (s.stream.drop s.speech_start).take (s.cursor - s.speech_start),
           n := s.cursor - s.speech_start }]) ∧
    (¬ cfg.min_speech_duration ≤
        ((s.cursor - s.speech_start : ℕ) : ℚ) / (cfg.sample_rate : ℚ) →
      (flush cfg s).queue = s.queue) := by
  by_cases hd : cfg.min_speech_duration ≤
      ((s.cursor - s.speech_start : ℕ) : ℚ) / (cfg.sample_rate : ℚ) <;>
    simp [flush, h, hd]

/-- Witness for C4: a detector mid-speech whose run of two samples (0.5 s at
4 Hz) meets the 0.5 s minimum, so flushing appends exactly that run. -/
theorem flush_in_speech_witness :
    (flush demoCfg
      { stream := [1, 1, 1], cursor := 2, speaking := true, speech_start := 0,
        silence_acc := 0, queue := [] }).queue =
      [{ start := 0, samples := [1, 1], n := 2 }] :=
  (flush_in_speech demoCfg _ rfl).2.2.2.1 (by norm_num [demoCfg])

/-! ## Queue-duration invariant -/

lemma queue_ok_processWindow (cfg : VadConfig) (score : List ℚ → ℚ)
    (s : VadState)
    (h : ∀ seg ∈ s.queue,
      cfg.min_speech_duration ≤ (seg.n : ℚ) / (cfg.sample_rate : ℚ)) :
    ∀ seg ∈ (processWindow cfg score s).queue,
      cfg.min_speech_duration ≤ (seg.n : ℚ) / (cfg.sample_rate : ℚ) := by
  intro seg hseg
  simp only [processWindow] at hseg
  split_ifs at hseg with h1 h2 h3 h4 h5
  all_goals first
    | exact h seg hseg
    | (rcases List.mem_append.mp hseg with hL | hR
       · exact h seg hL
       · rw [List.mem_singleton.mp hR]
         exact h5)

lemma queue_ok_processWindows (cfg : VadConfig) (score : List ℚ → ℚ) :
    ∀ (k : ℕ) (s : VadState),
      (∀ seg ∈ s.queue,
        cfg.min_speech_duration ≤ (seg.n : ℚ) / (cfg.sample_rate : ℚ)) →
      ∀ seg ∈ (processWindows cfg score k s).queue,
        cfg.min_speech_duration ≤ (seg.n : ℚ) / (cfg.sample_rate : ℚ)
  | 0, _, h => h
  | k + 1, s, h =>
    queue_ok_processWindows cfg score k (processWindow cfg score s)
      (queue_ok_processWindow cfg score s h)

lemma queue_ok_flush (cfg : VadConfig) (s : VadState)
    (h : ∀ seg ∈ s.queue,
      cfg.min_speech_duration ≤ (seg.n : ℚ) / (cfg.sample_rate : ℚ)) :
    ∀ seg ∈ (flush cfg s).queue,
      cfg.min_speech_duration ≤ (seg.n : ℚ) / (cfg.sample_rate : ℚ) := by
  intro seg hseg
  simp only [flush] at hseg
  split_ifs at hseg with h1 h2
  · rcases List.mem_append.mp hseg with hL | hR
    · exact h seg hL
    · rw [List.mem_singleton.mp hR]
      exact h2
  · exact h seg hseg
  · exact h seg hseg

/-- C1: in every reachable detector state, every segment in the queue has
classified-speech duration (`n / sample_rate`) at least
`min_speech_duration`; no operation ever pushes a shorter segment. -/
theorem min_speech_invariant (cfg : VadConfig) (score : List ℚ → ℚ)
    (s : VadState) (h : Reachable cfg score s) :
    ∀ seg ∈ s.queue,
      cfg.min_speech_duration ≤ (seg.n : ℚ) / (cfg.sample_rate : ℚ) := by
  induction h with
  | init => intro seg hseg; cases hseg
  | acceptStep t samples _ ih =>
    exact queue_ok_processWindows cfg score _ _ ih
  | flushStep t _ ih => exact queue_ok_flush cfg t ih
  | resetStep t _ ih => exact ih
  | clearStep t _ ih => intro seg hseg; cases hseg
  | popStep t t' _ hp ih =>
    intro seg hseg
    simp only [pop] at hp
    rcases hq : t.queue with _ | ⟨a, rest⟩
    · rw [hq] at hp; cases hp
    · rw [hq] at hp
      cases hp
      exact ih seg (by rw [hq]; exact List.mem_cons_of_mem a hseg)

/-- Witness for C1: after feeding `[1,1,0,0]` through the small demo
configuration, the single queued segment (two samples, 0.5 s at 4 Hz) meets
the 0.5 s minimum speech duration. -/
theorem min_speech_invariant_witness :
    demoCfg.min_speech_duration ≤
      ((({ start := 0, samples := [1, 1], n := 2 } : Segment).n : ℚ)) /
        (demoCfg.sample_rate : ℚ) :=
  min_speech_invariant demoCfg scoreHead _
    (Reachable.acceptStep initState [1, 1, 0, 0] Reachable.init) _
    (by with_unfolding_all decide)

/-- C6: immediately after `reset()` the detector reports no speech in
progress (the state machine is back in `Silence`), and the segment queue is
exactly what it was before the call. -/
theorem reset_not_detected_queue_unchanged (s : VadState) :
    isSpeechDetected (reset s) = false ∧ (reset s).queue = s.queue :=
  ⟨rfl, rfl⟩

/-! ## Chunk-size independence -/

lemma slice_append (l t : List ℚ) (a m : ℕ) (h : a + m ≤ l.length) :
    ((l ++ t).drop a).take m = (l.drop a).take m := by
  rw [List.drop_append_of_le_length (by omega),
    List.take_append_of_le_length (by simp [List.length_drop]; omega)]

lemma acceptWaveform_def (cfg : VadConfig) (score : List ℚ → ℚ)
    (s : VadState) (samples : List ℚ) :
    acceptWaveform cfg score s samples =
      processWindows cfg score
        ((s.stream.length + samples.length - s.cursor) / cfg.window_size)
        { s with stream := s.stream ++ samples } := by
  simp [acceptWaveform, List.length_append]

lemma slice_append_close (l t : List ℚ) (st cw acc : ℕ) (h : cw ≤ l.length) :
    ((l ++ t).drop st).take (cw - st - acc) =
      (l.drop st).take (cw - st - acc) := by
  rcases Nat.eq_zero_or_pos (cw - st - acc) with h0 | hpos
  · rw [h0]
    simp
  · exact slice_append l t st _ (by omega)

lemma processWindow_ext (cfg : VadConfig) (score : List ℚ → ℚ)
    (s : VadState) (t : List ℚ)
    (h : s.cursor + cfg.window_size ≤ s.stream.length) :
    processWindow cfg score { s with stream := s.stream ++ t } =
      { processWindow cfg score s with stream := s.stream ++ t } := by
  have hwin := slice_append s.stream t s.cursor cfg.window_size h
  have hcl := slice_append_close s.stream t s.speech_start
    (s.cursor + cfg.window_size) (s.silence_acc + cfg.window_size) h
  simp only [processWindow, hwin]
  split_ifs with h1 h2 h3 h4 h5
  · rfl
  · rfl
  · rw [hcl]
  · rfl
  · rfl
  · rfl

lemma processWindows_ext (cfg : VadConfig) (score : List ℚ → ℚ) :
    ∀ (k : ℕ) (s : VadState) (t : List ℚ),
      s.cursor + k * cfg.window_size ≤ s.stream.length →
      processWindows cfg score k { s with stream := s.stream ++ t } =
        { processWindows cfg score k s with stream := s.stream ++ t }
  | 0, s, t, _ => rfl
  | k + 1, s, t, h => by
    have h1 : s.cursor + cfg.window_size ≤ s.stream.length := by
      refine le_trans (Nat.add_le_add_left ?_ s.cursor) h
      exact Nat.le_mul_of_pos_left cfg.window_size k.succ_pos
    rw [processWindows, processWindows, processWindow_ext cfg score s t h1]
    have hst := processWindow_stream cfg score s
    have hcu := processWindow_cursor cfg score s
    have h2 : (processWindow cfg score s).cursor + k * cfg.window_size ≤
        (processWindow cfg score s).stream.length := by
      rw [hst, hcu]
      calc s.cursor + cfg.window_size + k * cfg.window_size
          = s.cursor + (k + 1) * cfg.window_size := by ring
        _ ≤ s.stream.length := h
    calc processWindows cfg score k
          { processWindow cfg score s with stream := s.stream ++ t }
        = processWindows cfg score k
            { processWindow cfg score s with
                stream := (processWindow cfg score s).stream ++ t } := by
          rw [hst]
      _ = { processWindows cfg score k (processWindow cfg score s) with
              stream := (processWindow cfg score s).stream ++ t } :=
          processWindows_ext cfg score k (processWindow cfg score s) t h2
      _ = { processWindows cfg score k (processWindow cfg score s) with
              stream := s.stream ++ t } := by rw [hst]

lemma nat_chunk_div (w x y : ℕ) (hw : 0 < w) :
    x / w + (x % w + y) / w = (x + y) / w := by
  conv_rhs => rw [← Nat.div_add_mod x w]
  rw [Nat.add_assoc, Nat.mul_add_div hw]

lemma nat_window_chunks (w c la lb : ℕ) (hw : 0 < w) (hc : c ≤ la) :
    (la - c) / w + (la + lb - (c + (la - c) / w * w)) / w =
      (la + lb - c) / w := by
  have h2 : la + lb - c = (la - c) + lb := by omega
  have h1 : la + lb - (c + (la - c) / w * w) = (la - c) % w + lb := by
    have hdm : (la - c) / w * w + (la - c) % w = la - c :=
      Nat.div_add_mod' (la - c) w
    generalize (la - c) / w * w = d at hdm ⊢
    omega
  rw [h1, h2, nat_chunk_div w (la - c) lb hw]

lemma accept_accept (cfg : VadConfig) (score : List ℚ → ℚ)
    (hw : 0 < cfg.window_size) (s : VadState)
    (h : s.cursor ≤ s.stream.length) (a b : List ℚ) :
    acceptWaveform cfg score (acceptWaveform cfg score s a) b =
      acceptWaveform cfg score s (a ++ b) := by
  rw [acceptWaveform_def cfg score s a]
  set k1 := (s.stream.length + a.length - s.cursor) / cfg.window_size with hk1
  set A := processWindows cfg score k1 { s with stream := s.stream ++ a }
    with hA
  have hAs : A.stream = s.stream ++ a := processWindows_stream cfg score k1 _
  have hAc : A.cursor = s.cursor + k1 * cfg.window_size :=
    processWindows_cursor cfg score k1 _
  have hk1w : k1 * cfg.window_size ≤ s.stream.length + a.length - s.cursor :=
    Nat.div_mul_le_self _ _
  rw [acceptWaveform_def cfg score A b, acceptWaveform_def cfg score s (a ++ b)]
  have hext : processWindows cfg score k1
      { s with stream := (s.stream ++ a) ++ b } =
        { A with stream := (s.stream ++ a) ++ b } := by
    have hcond : ({ s with stream := s.stream ++ a } : VadState).cursor +
        k1 * cfg.window_size ≤
          ({ s with stream := s.stream ++ a } : VadState).stream.length := by
      show s.cursor + k1 * cfg.window_size ≤ (s.stream ++ a).length
      rw [List.length_append]
      generalize k1 * cfg.window_size = d at hk1w ⊢
      omega
    have := processWindows_ext cfg score k1
      { s with stream := s.stream ++ a } b hcond
    simpa using this
  have hstep : ({ A with stream := A.stream ++ b } : VadState) =
      processWindows cfg score k1 { s with stream := (s.stream ++ a) ++ b } := by
    rw [hext, hAs]
  rw [hstep, ← processWindows_add]
  have hlen : A.stream.length = s.stream.length + a.length := by
    rw [hAs, List.length_append]
  rw [hlen, hAc, List.append_assoc]
  congr 1
  rw [List.length_append, ← Nat.add_assoc]
  exact nat_window_chunks cfg.window_size s.cursor
    (s.stream.length + a.length) b.length hw (by omega)

lemma accept_cursor_le (cfg : VadConfig) (score : List ℚ → ℚ)
    (s : VadState) (samples : List ℚ) (h : s.cursor ≤ s.stream.length) :
    (acceptWaveform cfg score s samples).cursor ≤
      (acceptWaveform cfg score s samples).stream.length := by
  rw [acceptWaveform_def, processWindows_cursor, processWindows_stream]
  show s.cursor + _ * cfg.window_size ≤ (s.stream ++ samples).length
  rw [List.length_append]
  have hk := Nat.div_mul_le_self
    (s.stream.length + samples.length - s.cursor) cfg.window_size
  generalize (s.stream.length + samples.length - s.cursor) / cfg.window_size *
    cfg.window_size = d at hk ⊢
  omega

lemma accept_leftover_lt (cfg : VadConfig) (score : List ℚ → ℚ)
    (hw : 0 < cfg.window_size) (s : VadState) (samples : List ℚ)
    (h : s.cursor ≤ s.stream.length) :
    (acceptWaveform cfg score s samples).stream.length -
      (acceptWaveform cfg score s samples).cursor < cfg.window_size := by
  rw [acceptWaveform_def, processWindows_cursor, processWindows_stream]
  show (s.stream ++ samples).length - (s.cursor + _ * cfg.window_size) <
    cfg.window_size
  rw [List.length_append]
  have hdm : (s.stream.length + samples.length - s.cursor) / cfg.window_size *
        cfg.window_size +
      (s.stream.length + samples.length - s.cursor) % cfg.window_size =
        s.stream.length + samples.length - s.cursor :=
    Nat.div_add_mod' _ _
  have hlt : (s.stream.length + samples.length - s.cursor) % cfg.window_size <
      cfg.window_size := Nat.mod_lt _ hw
  generalize (s.stream.length + samples.length - s.cursor) / cfg.window_size *
    cfg.window_size = d at hdm ⊢
  generalize (s.stream.length + samples.length - s.cursor) % cfg.window_size =
    r at hdm hlt ⊢
  omega

lemma accept_nil (cfg : VadConfig) (score : List ℚ → ℚ) (s : VadState)
    (h : s.stream.length - s.cursor < cfg.window_size) :
    acceptWaveform cfg score s [] = s := by
  rw [acceptWaveform_def]
  have h0 : (s.stream.length + ([] : List ℚ).length - s.cursor) /
      cfg.window_size = 0 := by
    apply Nat.div_eq_of_lt
    simpa using h
  rw [h0, List.append_nil]
  rfl

lemma foldl_accept (cfg : VadConfig) (score : List ℚ → ℚ)
    (hw : 0 < cfg.window_size) :
    ∀ (cs : List (List ℚ)) (s : VadState), s.cursor ≤ s.stream.length →
      s.stream.length - s.cursor < cfg.window_size →
      List.foldl (acceptWaveform cfg score) s cs =
        acceptWaveform cfg score s cs.flatten
  | [], s, _, h2 => by
    rw [List.flatten_nil, List.foldl_nil, accept_nil cfg score s h2]
  | chunk :: rest, s, h1, h2 => by
    rw [List.foldl_cons, List.flatten_cons,
      foldl_accept cfg score hw rest (acceptWaveform cfg score s chunk)
        (accept_cursor_le cfg score s chunk h1)
        (accept_leftover_lt cfg score hw s chunk h1),
      accept_accept cfg score hw s h1]

/-- C2: the sequence of emitted segments does not depend on how the reference
signal is chunked across `accept_waveform` calls: any two partitions of the
same signal drive the detector from the initial state to the very same state,
and in particular to the same segment queue (same order, start indices,
samples and counts). -/
theorem chunking_independent (cfg : VadConfig) (score : List ℚ → ℚ)
    (hw : 0 < cfg.window_size) (cs₁ cs₂ : List (List ℚ)) (signal : List ℚ)
    (h₁ : cs₁.flatten = signal) (h₂ : cs₂.flatten = signal) :
    List.foldl (acceptWaveform cfg score) initState cs₁ =
      List.foldl (acceptWaveform cfg score) initState cs₂ ∧
    (List.foldl (acceptWaveform cfg score) initState cs₁).queue =
      (List.foldl (acceptWaveform cfg score) initState cs₂).queue := by
  have e1 := foldl_accept cfg score hw cs₁ initState (by simp [initState])
    (by simp [initState]; exact hw)
  have e2 := foldl_accept cfg score hw cs₂ initState (by simp [initState])
    (by simp [initState]; exact hw)
  rw [e1, e2, h₁, h₂]
  exact ⟨rfl, rfl⟩

/-- Witness for C2: two different chunkings of the signal `[1,1,0,0]` under
the demo configuration produce identical detector states. -/
theorem chunking_independent_witness :
    List.foldl (acceptWaveform demoCfg scoreHead) initState [[1, 1], [0, 0]] =
      List.foldl (acceptWaveform demoCfg scoreHead) initState
        [[1], [1, 0], [0]] :=
  (chunking_independent demoCfg scoreHead (by decide) [[1, 1], [0, 0]]
    [[1], [1, 0], [0]] [1, 1, 0, 0] rfl rfl).1

/-! ## Harness sample normalization -/

/-- C9: every 16-bit signed sample `v` read by the harness is converted to
`v / 32768`, which lies in `[-1, 1]` — in fact in `[-1, 32767/32768]` — so
every sample handed to `accept_waveform` meets the documented normalization
precondition. -/
theorem normalize_sample_in_range (v : ℤ) (h1 : -32768 ≤ v)
    (h2 : v ≤ 32767) :
    -1 ≤ normalizeSample v ∧ normalizeSample v ≤ 32767 / 32768 ∧
      normalizeSample v ≤ 1 := by
  have hv1 : (-32768 : ℚ) ≤ (v : ℚ) := by exact_mod_cast h1
  have hv2 : (v : ℚ) ≤ 32767 := by exact_mod_cast h2
  have hlow : -1 ≤ normalizeSample v := by
    rw [normalizeSample, le_div_iff₀ (by norm_num)]
    linarith
  have hmid : normalizeSample v ≤ 32767 / 32768 := by
    rw [normalizeSample]
    exact div_le_div_of_nonneg_right hv2 (by norm_num)
  exact ⟨hlow, hmid, le_trans hmid (by norm_num)⟩

/-- Witness for C9 at the extreme sample `v = -32768`. -/
theorem normalize_sample_in_range_witness :
    -1 ≤ normalizeSample (-32768) ∧
      normalizeSample (-32768) ≤ 32767 / 32768 ∧
      normalizeSample (-32768) ≤ 1 :=
  normalize_sample_in_range (-32768) (by norm_num) (by norm_num)

/-! ## Harness main-loop coverage and termination -/

lemma harnessTrace_spec (w num : ℕ) (hw : 0 < w) :
    ∀ (fuel i : ℕ), num ≤ i + fuel * w →
      ∃ tr, harnessTrace w num (fuel + 1) i = some tr ∧
        (tr.map eventSamples).flatten = List.range' i (num - i) ∧
        tr.getLast? = some .flushEv ∧
        (tr.filter isFlushEvent).length = 1
  | 0, i, hfuel => by
    have hc1 : ¬ i + w < num := by omega
    have hc2 : ¬ i < num := by omega
    refine ⟨[.flushEv], ?_, ?_, rfl, rfl⟩
    · simp [harnessTrace, hc1, hc2]
    · have h0 : num - i = 0 := by omega
      rw [h0]
      simp [eventSamples]
  | fuel + 1, i, hfuel => by
    by_cases hc : i + w < num
    · have hm : (fuel + 1) * w = fuel * w + w := Nat.succ_mul fuel w
      obtain ⟨tr, htr, hcov, hlast, hcount⟩ :=
        harnessTrace_spec w num hw fuel (i + w) (by omega)
      refine ⟨.acceptEv i w :: tr, ?_, ?_, ?_, ?_⟩
      · show harnessTrace w num (fuel + 1 + 1) i = _
        rw [harnessTrace, if_pos hc, htr]
        rfl
      · have hsplit : num - i = (num - (i + w)) + w := by omega
        simp only [List.map_cons, List.flatten_cons, hcov, eventSamples]
        rw [hsplit, ← List.range'_append i w (num - (i + w)) 1]
        have h1w : i + 1 * w = i + w := by ring
        rw [h1w, List.range'_eq_map_range i w]
      · cases tr with
        | nil => cases hlast
        | cons b t => rw [List.getLast?_cons_cons]; exact hlast
      · rw [List.filter_cons_of_neg (by simp [isFlushEvent])]
        exact hcount
    · by_cases hc2 : i < num
      · refine ⟨[.acceptEv i (num - i), .flushEv], ?_, ?_, rfl, rfl⟩
        · simp [harnessTrace, hc, hc2]
        · simp [eventSamples, List.range'_eq_map_range]
      · refine ⟨[.flushEv], ?_, ?_, rfl, rfl⟩
        · simp [harnessTrace, hc, hc2]
        · have h0 : num - i = 0 := by omega
          rw [h0]
          simp [eventSamples]

/-- C10: for every input length and positive window size, the harness's main
loop terminates within `num / w + 2` iterations, passes each sample index in
`[0, num)` to `accept_waveform` exactly once and in order, and calls `flush`
exactly once, as the last event after all samples. -/
theorem harness_covers_samples_once (w num : ℕ) (hw : 0 < w) :
    ∃ tr, harnessTrace w num (num / w + 2) 0 = some tr ∧
      (tr.map eventSamples).flatten = List.range num ∧
      tr.getLast? = some .flushEv ∧
      (tr.filter isFlushEvent).length = 1 := by
  have hfuel : num ≤ 0 + (num / w + 1) * w := by
    have hdm : num / w * w + num % w = num := Nat.div_add_mod' num w
    have hlt : num % w < w := Nat.mod_lt num hw
    have hm : (num / w + 1) * w = num / w * w + w := Nat.succ_mul _ _
    omega
  obtain ⟨tr, htr, hcov, hlast, hcount⟩ :=
    harnessTrace_spec w num hw (num / w + 1) 0 hfuel
  refine ⟨tr, htr, ?_, hlast, hcount⟩
  rw [hcov, Nat.sub_zero, List.range_eq_range']

/-- Witness for C10 with a five-sample input and two-sample windows: three
iterations, two accepts covering `[0, 5)`, one trailing flush. -/
theorem harness_covers_samples_once_witness :
    ∃ tr, harnessTrace 2 5 (5 / 2 + 2) 0 = some tr ∧
      (tr.map eventSamples).flatten = List.range 5 ∧
      tr.getLast? = some .flushEv ∧
      (tr.filter isFlushEvent).length = 1 :=
  harness_covers_samples_once 2 5 (by decide)

/-! ## Harness queue discipline -/

lemma drain_no_error_aux :
    ∀ (n : ℕ) (s : VadState) (count : ℕ), s.queue.length ≤ n →
      ∃ r, drainLoop s count = .ok r
  | n, s, count, hn => by
    rw [drainLoop]
    split_ifs with hemp
    · exact ⟨(count, s), rfl⟩
    · rcases hq : s.queue with _ | ⟨a, rest⟩
      · rw [hq] at hemp
        simp at hemp
      · have hf : front s = .ok a := by simp [front, hq]
        have hp : pop s = .ok { s with queue := rest } := by simp [pop, hq]
        rw [hf, hp]
        cases n with
        | zero => rw [hq] at hn; simp at hn
        | succ m =>
          rw [hq] at hn
          simp only [List.length_cons] at hn
          exact drain_no_error_aux m { s with queue := rest } (count + 1)
            (by simp only []; omega)

lemma drain_no_error (s : VadState) (count : ℕ) :
    ∃ r, drainLoop s count = .ok r :=
  drain_no_error_aux s.queue.length s count le_rfl

/-- C8: every completed execution of the demonstration harness's main loop
ends without a queue error: `front`/`pop` are called only inside
`while (!Empty)`, so the `EmptyQueue` branch is unreachable in every
execution, whatever the input, configuration, scorer or starting state. -/
theorem harness_no_empty_queue_error (cfg : VadConfig) (score : List ℚ → ℚ)
    (samples : List ℚ) (w : ℕ) :
    ∀ (fuel i segIdx : ℕ) (s : VadState)
      (r : Except VadError (ℕ × VadState)),
      harnessLoop cfg score samples w fuel i segIdx s = some r →
      ∃ v, r = .ok v
  | 0, i, segIdx, s, r, h => by cases h
  | fuel + 1, i, segIdx, s, r, h => by
    simp only [harnessLoop] at h
    by_cases hc : i + w < samples.length
    · rw [if_pos hc] at h
      obtain ⟨⟨segIdx', s'⟩, hd⟩ := drain_no_error
        (acceptWaveform cfg score s ((samples.drop i).take w)) segIdx
      rw [hd] at h
      exact harness_no_empty_queue_error cfg score samples w fuel (i + w)
        segIdx' s' r h
    · rw [if_neg hc] at h
      obtain ⟨v, hv⟩ := drain_no_error
        (flush cfg (if i < samples.length
          then acceptWaveform cfg score s (samples.drop i) else s)) segIdx
      refine ⟨v, ?_⟩
      have hr : r = drainLoop (flush cfg (if i < samples.length
          then acceptWaveform cfg score s (samples.drop i) else s)) segIdx :=
        (Option.some.inj h).symm
      rw [hr, hv]

/-- Witness for C8: running the harness on an empty input completes with an
ok result (no `EmptyQueue` error). -/
theorem harness_no_empty_queue_error_witness :
    ∃ v, (Except.ok (0, initState) :
        Except VadError (ℕ × VadState)) = .ok v := by
  have h : harnessLoop demoCfg scoreHead [] 2 1 0 0 initState =
      some (.ok (0, initState)) := by
    have hd : drainLoop (VadState.mk [] 0 false 0 0 []) 0 =
        .ok (0, VadState.mk [] 0 false 0 0 []) := by
      rw [drainLoop]
      rfl
    rw [harnessLoop]
    norm_num [flush, initState, hd]
  exact harness_no_empty_queue_error demoCfg scoreHead [] 2 1 0 0 initState
    (.ok (0, initState)) h

/-! ## Single-window transition lemmas -/

lemma processWindow_silence_silence (cfg : VadConfig) (score : List ℚ → ℚ)
    (s : VadState) (hs : s.speaking = false)
    (hp : score ((s.stream.drop s.cursor).take cfg.window_size) <
      cfg.threshold) :
    processWindow cfg score s =
      { s with cursor := s.cursor + cfg.window_size } := by
  simp [processWindow, isSpeechScore, hs, hp.not_le]

lemma processWindow_speech_enter (cfg : VadConfig) (score : List ℚ → ℚ)
    (s : VadState) (hs : s.speaking = false)
    (hp : cfg.threshold ≤
      score ((s.stream.drop s.cursor).take cfg.window_size)) :
    processWindow cfg score s =
      { s with speaking := true, speech_start := s.cursor, silence_acc := 0,
               cursor := s.cursor + cfg.window_size } := by
  simp [processWindow, isSpeechScore, hs, hp]

lemma processWindow_speech_stay (cfg : VadConfig) (score : List ℚ → ℚ)
    (s : VadState) (hs : s.speaking = true)
    (hp : cfg.threshold ≤
      score ((s.stream.drop s.cursor).take cfg.window_size)) :
    processWindow cfg score s =
      { s with silence_acc := 0, cursor := s.cursor + cfg.window_size } := by
  simp [processWindow, isSpeechScore, hs, hp]

lemma processWindow_silence_accumulate (cfg : VadConfig)
    (score : List ℚ → ℚ) (s : VadState) (hs : s.speaking = true)
    (hp : score ((s.stream.drop s.cursor).take cfg.window_size) <
      cfg.threshold)
    (hacc : ¬ cfg.min_silence_duration ≤
      ((s.silence_acc + cfg.window_size : ℕ) : ℚ) / (cfg.sample_rate : ℚ)) :
    processWindow cfg score s =
      { s with silence_acc := s.silence_acc + cfg.window_size,
               cursor := s.cursor + cfg.window_size } := by
  rw [not_le] at hacc
  push_cast at hacc
  simp [processWindow, isSpeechScore, hs, hp.not_le, hacc]

lemma processWindow_close_push (cfg : VadConfig) (score : List ℚ → ℚ)
    (s : VadState) (hs : s.speaking = true)
    (hp : score ((s.stream.drop s.cursor).take cfg.window_size) <
      cfg.threshold)
    (hacc : cfg.min_silence_duration ≤
      ((s.silence_acc + cfg.window_size : ℕ) : ℚ) / (cfg.sample_rate : ℚ))
    (hdur : cfg.min_speech_duration ≤
      ((s.cursor + cfg.window_size - s.speech_start -
          (s.silence_acc + cfg.window_size) : ℕ) : ℚ) /
        (cfg.sample_rate : ℚ)) :
    processWindow cfg score s =
      { s with speaking := false, speech_start := 0, silence_acc := 0,
               queue := s.queue ++
                 [{ start := s.speech_start,
                    samples := (s.stream.drop s.speech_start).take
                      (s.cursor + cfg.window_size - s.speech_start -
                        (s.silence_acc + cfg.window_size)),
                    n := s.cursor + cfg.window_size - s.speech_start -
                      (s.silence_acc + cfg.window_size) }],
               cursor := s.cursor + cfg.window_size } := by
  have hacc2 : cfg.min_silence_duration ≤
      ((s.silence_acc : ℚ) + (cfg.window_size : ℚ)) / (cfg.sample_rate : ℚ) := by
    push_cast at hacc
    exact hacc
  simp [processWindow, isSpeechScore, hs, hp.not_le, hacc2, hdur]

/-! ## Iterated phase lemmas -/

lemma processWindows_all_silent (cfg : VadConfig) (score : List ℚ → ℚ) :
    ∀ (k : ℕ) (s : VadState), s.speaking = false →
      (∀ j, j < k →
        score ((s.stream.drop (s.cursor + j * cfg.window_size)).take
          cfg.window_size) < cfg.threshold) →
      processWindows cfg score k s =
        { s with cursor := s.cursor + k * cfg.window_size }
  | 0, s, _, _ => by simp [processWindows]
  | k + 1, s, hs, hsc => by
    have h0 := hsc 0 k.succ_pos
    rw [Nat.zero_mul, Nat.add_zero] at h0
    have hrec := processWindows_all_silent cfg score k
      { s with cursor := s.cursor + cfg.window_size } hs
      (fun j hj => by
        have hx := hsc (j + 1) (by omega)
        have harith : s.cursor + (j + 1) * cfg.window_size =
            s.cursor + cfg.window_size + j * cfg.window_size := by ring
        rw [harith] at hx
        exact hx)
    rw [processWindows, processWindow_silence_silence cfg score s hs h0, hrec]
    congr 1
    ring

lemma processWindows_all_speech_stay (cfg : VadConfig)
    (score : List ℚ → ℚ) :
    ∀ (k : ℕ) (s : VadState), s.speaking = true → s.silence_acc = 0 →
      (∀ j, j < k →
        cfg.threshold ≤
          score ((s.stream.drop (s.cursor + j * cfg.window_size)).take
            cfg.window_size)) →
      processWindows cfg score k s =
        { s with cursor := s.cursor + k * cfg.window_size }
  | 0, s, _, _, _ => by simp [processWindows]
  | k + 1, s, hs, ha, hsc => by
    have h0 := hsc 0 k.succ_pos
    rw [Nat.zero_mul, Nat.add_zero] at h0
    have hstep := processWindow_speech_stay cfg score s hs h0
    have hsa : ({ s with silence_acc := 0,
                         cursor := s.cursor + cfg.window_size } : VadState) =
        { s with cursor := s.cursor + cfg.window_size } := by
      rcases s with ⟨st, cu, sp, ss, sa, q⟩
      simp only at ha
      rw [ha]
    have hrec := processWindows_all_speech_stay cfg score k
      { s with cursor := s.cursor + cfg.window_size } hs ha
      (fun j hj => by
        have hx := hsc (j + 1) (by omega)
        have harith : s.cursor + (j + 1) * cfg.window_size =
            s.cursor + cfg.window_size + j * cfg.window_size := by ring
        rw [harith] at hx
        exact hx)
    rw [processWindows, hstep, hsa, hrec]
    congr 1
    ring

lemma rat_nat_div_mono (a b c : ℕ) (h : a ≤ b) :
    (a : ℚ) / (c : ℚ) ≤ (b : ℚ) / (c : ℚ) := by
  rcases Nat.eq_zero_or_pos c with h0 | hpos
  · subst h0
    simp
  · have hc : (0 : ℚ) < c := by exact_mod_cast hpos
    exact (div_le_div_iff_of_pos_right hc).mpr (by exact_mod_cast h)

lemma processWindows_all_silence_accumulate (cfg : VadConfig)
    (score : List ℚ → ℚ) :
    ∀ (k : ℕ) (s : VadState), s.speaking = true →
      (∀ j, j < k →
        score ((s.stream.drop (s.cursor + j * cfg.window_size)).take
          cfg.window_size) < cfg.threshold) →
      (¬ cfg.min_silence_duration ≤
        ((s.silence_acc + k * cfg.window_size : ℕ) : ℚ) /
          (cfg.sample_rate : ℚ)) →
      processWindows cfg score k s =
        { s with silence_acc := s.silence_acc + k * cfg.window_size,
                 cursor := s.cursor + k * cfg.window_size }
  | 0, s, _, _, _ => by simp [processWindows]
  | k + 1, s, hs, hsc, hK => by
    have h0 := hsc 0 k.succ_pos
    rw [Nat.zero_mul, Nat.add_zero] at h0
    have hmono : s.silence_acc + cfg.window_size ≤
        s.silence_acc + (k + 1) * cfg.window_size :=
      Nat.add_le_add_left
        (Nat.le_mul_of_pos_left cfg.window_size k.succ_pos) _
    have hacc1 : ¬ cfg.min_silence_duration ≤
        ((s.silence_acc + cfg.window_size : ℕ) : ℚ) /
          (cfg.sample_rate : ℚ) :=
      fun hcon => hK (le_trans hcon (rat_nat_div_mono _ _ _ hmono))
    have hstep := processWindow_silence_accumulate cfg score s hs h0 hacc1
    have harith2 : s.silence_acc + cfg.window_size + k * cfg.window_size =
        s.silence_acc + (k + 1) * cfg.window_size := by ring
    have hrec := processWindows_all_silence_accumulate cfg score k
      { s with silence_acc := s.silence_acc + cfg.window_size,
               cursor := s.cursor + cfg.window_size } hs
      (fun j hj => by
        have hx := hsc (j + 1) (by omega)
        have harith : s.cursor + (j + 1) * cfg.window_size =
            s.cursor + cfg.window_size + j * cfg.window_size := by ring
        rw [harith] at hx
        exact hx)
      (by
        show ¬ cfg.min_silence_duration ≤
          ((s.silence_acc + cfg.window_size + k * cfg.window_size : ℕ) : ℚ) /
            (cfg.sample_rate : ℚ)
        rw [harith2]
        exact hK)
    rw [processWindows, hstep, hrec]
    congr 1
    ring

/-! ## Score characterization for the concrete scenario -/

lemma scoreHead_window (l : List ℚ) (k w : ℕ) (hw : 0 < w) :
    scoreHead ((l.drop k).take w) = l.getD k 0 := by
  rw [scoreHead]
  simp only [List.headD_eq_head?, List.head?_take, List.head?_drop,
    List.getD_eq_getElem?_getD]
  rw [if_neg (by omega)]

lemma scenarioInput_getD (k : ℕ) :
    scenarioInput.getD k 0 =
      if k < 16000 then 1/10 else if k < 32000 then 9/10
      else if k < 41600 then 1/10 else 0 := by
  rw [scenarioInput, List.getD_eq_getElem?_getD]
  rw [List.getElem?_append, List.getElem?_append, List.getElem?_replicate,
    List.getElem?_replicate, List.getElem?_replicate, List.length_replicate,
    List.length_replicate]
  by_cases h1 : k < 16000
  · simp [h1]
  · by_cases h2 : k < 32000
    · have hx : k - 16000 < 16000 := by omega
      simp [h1, h2, hx]
    · by_cases h3 : k < 41600
      · have hx : ¬ k - 16000 < 16000 := by omega
        have hy : k - 16000 - 16000 < 9600 := by omega
        simp [h1, h2, h3, hx, hy]
      · have hx : ¬ k - 16000 < 16000 := by omega
        have hy : ¬ k - 16000 - 16000 < 9600 := by omega
        simp [h1, h2, h3, hx, hy]

lemma scenario_score_low (c : ℕ)
    (h : c < 16000 ∨ (32000 ≤ c ∧ c < 41600)) :
    scoreHead ((scenarioInput.drop c).take 512) < scenarioCfg.threshold := by
  rw [scoreHead_window scenarioInput c 512 (by norm_num), scenarioInput_getD]
  rcases h with h | ⟨h1, h2⟩
  · rw [if_pos h]
    norm_num [scenarioCfg]
  · rw [if_neg (by omega), if_neg (by omega), if_pos h2]
    norm_num [scenarioCfg]

lemma scenario_score_high (c : ℕ) (h1 : 16000 ≤ c) (h2 : c < 32000) :
    scenarioCfg.threshold ≤ scoreHead ((scenarioInput.drop c).take 512) := by
  rw [scoreHead_window scenarioInput c 512 (by norm_num), scenarioInput_getD]
  rw [if_neg (by omega), if_pos h2]
  norm_num [scenarioCfg]

/-- C7: under the default configuration (512-sample windows, 16 kHz,
threshold 0.5, minimum silence 0.5 s, minimum speech 0.25 s), feeding one
second scored 0.1, one second scored 0.9 and 0.6 s scored 0.1 and then
flushing yields exactly one segment; its start 16384 and count 15872 are
within one window of 16000, and the segment is already closed by the silence
tail before `flush()` is called (the detector is back in `Silence` and the
queue already holds the segment; the flush adds nothing). -/
theorem scenario_exactly_one_segment :
    scenarioBeforeFlush.queue.map segmentInfo = [(16384, 15872)] ∧
    scenarioFinal.queue.map segmentInfo = [(16384, 15872)] ∧
    scenarioBeforeFlush.speaking = false ∧
    16384 - 16000 ≤ 512 ∧ 16000 - 15872 ≤ 512 := by
  have hw512 : scenarioCfg.window_size = 512 := rfl
  have hA : processWindows scenarioCfg scoreHead 32
      (VadState.mk scenarioInput 0 false 0 0 []) =
      VadState.mk scenarioInput 16384 false 0 0 [] := by
    rw [processWindows_all_silent scenarioCfg scoreHead 32 _ rfl
      (fun j hj => by
        show scoreHead ((scenarioInput.drop
          (0 + j * scenarioCfg.window_size)).take scenarioCfg.window_size) <
            scenarioCfg.threshold
        rw [hw512]
        exact scenario_score_low _ (Or.inl (by omega)))]
    norm_num [scenarioCfg]
  have hB : processWindow scenarioCfg scoreHead
      (VadState.mk scenarioInput 16384 false 0 0 []) =
      VadState.mk scenarioInput 16896 true 16384 0 [] := by
    have hp : scenarioCfg.threshold ≤ scoreHead
        ((scenarioInput.drop 16384).take 512) :=
      scenario_score_high 16384 (by omega) (by omega)
    rw [processWindow_speech_enter scenarioCfg scoreHead _ rfl
      (by rw [hw512]; exact hp)]
    norm_num [scenarioCfg]
  have hC : processWindows scenarioCfg scoreHead 30
      (VadState.mk scenarioInput 16896 true 16384 0 []) =
      VadState.mk scenarioInput 32256 true 16384 0 [] := by
    rw [processWindows_all_speech_stay scenarioCfg scoreHead 30 _ rfl rfl
      (fun j hj => by
        show scenarioCfg.threshold ≤ scoreHead ((scenarioInput.drop
          (16896 + j * scenarioCfg.window_size)).take scenarioCfg.window_size)
        rw [hw512]
        exact scenario_score_high _ (by omega) (by omega))]
    norm_num [scenarioCfg]
  have hD : processWindows scenarioCfg scoreHead 15
      (VadState.mk scenarioInput 32256 true 16384 0 []) =
      VadState.mk scenarioInput 39936 true 16384 7680 [] := by
    rw [processWindows_all_silence_accumulate scenarioCfg scoreHead 15 _ rfl
      (fun j hj => by
        show scoreHead ((scenarioInput.drop
          (32256 + j * scenarioCfg.window_size)).take
            scenarioCfg.window_size) < scenarioCfg.threshold
        rw [hw512]
        exact scenario_score_low _ (Or.inr ⟨by omega, by omega⟩))
      (by
        show ¬ scenarioCfg.min_silence_duration ≤
          ((0 + 15 * scenarioCfg.window_size : ℕ) : ℚ) /
            (scenarioCfg.sample_rate : ℚ)
        norm_num [scenarioCfg])]
    norm_num [scenarioCfg]
  have hE : processWindow scenarioCfg scoreHead
      (VadState.mk scenarioInput 39936 true 16384 7680 []) =
      VadState.mk scenarioInput 40448 false 0 0
        [Segment.mk 16384 ((scenarioInput.drop 16384).take 15872) 15872] := by
    have hp : scoreHead ((scenarioInput.drop 39936).take 512) <
        scenarioCfg.threshold :=
      scenario_score_low 39936 (Or.inr ⟨by omega, by omega⟩)
    rw [processWindow_close_push scenarioCfg scoreHead _ rfl
      (by rw [hw512]; exact hp)
      (by
        show scenarioCfg.min_silence_duration ≤
          ((7680 + scenarioCfg.window_size : ℕ) : ℚ) /
            (scenarioCfg.sample_rate : ℚ)
        norm_num [scenarioCfg])
      (by
        show scenarioCfg.min_speech_duration ≤
          ((39936 + scenarioCfg.window_size - 16384 -
              (7680 + scenarioCfg.window_size) : ℕ) : ℚ) /
            (scenarioCfg.sample_rate : ℚ)
        norm_num [scenarioCfg])]
    norm_num [scenarioCfg]
  have hF : processWindows scenarioCfg scoreHead 2
      (VadState.mk scenarioInput 40448 false 0 0
        [Segment.mk 16384 ((scenarioInput.drop 16384).take 15872) 15872]) =
      VadState.mk scenarioInput 41472 false 0 0
        [Segment.mk 16384 ((scenarioInput.drop 16384).take 15872) 15872] := by
    rw [processWindows_all_silent scenarioCfg scoreHead 2 _ rfl
      (fun j hj => by
        show scoreHead ((scenarioInput.drop
          (40448 + j * scenarioCfg.window_size)).take
            scenarioCfg.window_size) < scenarioCfg.threshold
        rw [hw512]
        exact scenario_score_low _ (Or.inr ⟨by omega, by omega⟩))]
    norm_num [scenarioCfg]
  have hone : ∀ s : VadState, processWindows scenarioCfg scoreHead 1 s =
      processWindow scenarioCfg scoreHead s := fun s => rfl
  have hsplit : scenarioBeforeFlush =
      VadState.mk scenarioInput 41472 false 0 0
        [Segment.mk 16384 ((scenarioInput.drop 16384).take 15872) 15872] := by
    rw [scenarioBeforeFlush, acceptWaveform_def]
    have hlen : scenarioInput.length = 41600 := by
      rw [scenarioInput, List.length_append, List.length_append,
        List.length_replicate, List.length_replicate, List.length_replicate]
    have hk : (initState.stream.length + scenarioInput.length -
        initState.cursor) / scenarioCfg.window_size = 81 := by
      rw [hlen]
      norm_num [initState, scenarioCfg]
    rw [hk]
    have hstate : ({ initState with
        stream := initState.stream ++ scenarioInput } : VadState) =
        VadState.mk scenarioInput 0 false 0 0 [] := by
      simp [initState]
    rw [hstate]
    rw [show (81 : ℕ) = 32 + (1 + (30 + (15 + (1 + 2)))) by norm_num]
    rw [processWindows_add, hA, processWindows_add, hone, hB,
      processWindows_add, hC, processWindows_add, hD,
      processWindows_add, hone, hE, hF]
  refine ⟨?_, ?_, ?_, by norm_num, by norm_num⟩
  · rw [hsplit]
    simp [segmentInfo]
  · rw [scenarioFinal, hsplit]
    simp [flush, segmentInfo]
  · rw [hsplit]

end SherpaVad
